import Mathlib

/-!
Verification development for the fire-tweet crawling and verification pipeline.

The Python sources embedded here (shallowly, as pure Lean functions over
explicit state) are:
  * `verify_tweets.py` — date normalization (`parse_twitter_date`), the
    relevance scorer (`get_fire_related_score`), the incident classifier
    wrapper (`verify_fire_incident`), the JSON-ledger append
    (`update_live_json`), the per-run orchestration
    (`verify_and_save_tweets` and `main`'s fanout gate), the historical
    date migration (`fix_existing_json_dates`), and the fanout step
    (`send_email_results`).
  * `utils.py` — the bulk uploader `send_to_api` (its parameter count is
    what matters for the fanout claims).
  * `tweet_fire_search.py` — `deduplicate_tweets`.
  * `clean_tweets.py` — `is_within_hours`.

External effects (the classification oracle, SMTP, HTTP, the filesystem)
are modelled as explicit inputs/outputs: oracle outcomes are parameters,
file contents are inductive state values, and dispatched side effects are
event lists.
-/

/- ### Character and string utilities (modelling Python `str` operations) -/

/-- ASCII whitespace test, modelling the characters Python's `str.split()`
splits on for the inputs in scope. -/
def isWs (c : Char) : Bool :=
  c = ' ' || c = '\t' || c = '\n' || c = '\r'

/-- Python `str.split()` on a character list: split on whitespace runs, dropping
empty tokens (Python's no-argument `split`). -/
def splitWsAux : List Char → List Char → List (List Char)
  | [], acc => if acc.isEmpty then [] else [acc.reverse]
  | c :: rest, acc =>
    if isWs c then
      if acc.isEmpty then splitWsAux rest [] else acc.reverse :: splitWsAux rest []
    else splitWsAux rest (c :: acc)

/-- Python `str.split()` (whitespace, no empty tokens). -/
def splitWs (l : List Char) : List (List Char) := splitWsAux l []

/-- Python `str.split(sep)` for a single separator character: keeps empty tokens,
as Python does for an explicit separator. -/
def splitChAux (sep : Char) : List Char → List Char → List (List Char)
  | [], acc => [acc.reverse]
  | c :: rest, acc =>
    if c = sep then acc.reverse :: splitChAux sep rest []
    else splitChAux sep rest (c :: acc)

/-- Python `str.split(sep)` for a single separator character. -/
def splitCh (sep : Char) (l : List Char) : List (List Char) := splitChAux sep l []

/-- Decimal digit test restricted to ASCII, as in `int()` parsing. -/
def isDigitCh (c : Char) : Bool := 48 ≤ c.toNat && c.toNat ≤ 57

/-- Value of an ASCII digit character. -/
def digitValue (c : Char) : Nat := c.toNat - 48

/-- Python `int(tok)` for a nonempty all-digit token; `none` otherwise (where the
Python call would raise `ValueError`). -/
def parseNatChars (l : List Char) : Option Nat :=
  if l.isEmpty then none
  else if l.all isDigitCh then some (l.foldl (fun acc c => acc * 10 + digitValue c) 0)
  else none

/-- Lowercase a token (ASCII, which covers every input in scope). -/
def lowerChars (l : List Char) : List Char := l.map Char.toLower

/- ### DateNormalizer: `parse_twitter_date` from `verify_tweets.py`

The source calls `email.utils.parsedate_to_datetime` and, on success,
`datetime.isoformat()`.  We model the library parser restricted to the
Twitter-style layout actually fed to it,
`"Mon Jul 28 14:45:00 +0000 2025"` (weekday, month name, day, `HH:MM:SS`
time, signed 4-digit zone, year).  Any other layout is rejected; in
particular any string without whitespace — such as an ISO-8601 output of
the formatter — is rejected by the library as well (its tokenizer finds a
single token and gives up), which the model reproduces. -/

/-- A parsed timestamp with its explicit UTC offset, mirroring the
timezone-aware `datetime` produced by `parsedate_to_datetime`. -/
structure TwDate where
  year : Nat
  month : Nat
  day : Nat
  hour : Nat
  minute : Nat
  second : Nat
  tzNeg : Bool
  tzHH : Nat
  tzMM : Nat
deriving DecidableEq, Repr

/-- The lowercase weekday names `email._parseaddr` recognizes. -/
def dayNames : List String :=
  ["mon", "tue", "wed", "thu", "fri", "sat", "sun"]

/-- Month-name token to month number, as in the library's month table. -/
def monthIndex (s : String) : Option Nat :=
  if s = "jan" then some 1
  else if s = "feb" then some 2
  else if s = "mar" then some 3
  else if s = "apr" then some 4
  else if s = "may" then some 5
  else if s = "jun" then some 6
  else if s = "jul" then some 7
  else if s = "aug" then some 8
  else if s = "sep" then some 9
  else if s = "oct" then some 10
  else if s = "nov" then some 11
  else if s = "dec" then some 12
  else none

/-- Parse the `HH:MM:SS` time token. -/
def parseTimeTok (l : List Char) : Option (Nat × Nat × Nat) :=
  match splitCh ':' l with
  | [h, m, s] => do
    let hv ← parseNatChars h
    let mv ← parseNatChars m
    let sv ← parseNatChars s
    some (hv, mv, sv)
  | _ => none

/-- Parse the signed 4-digit zone token (`+0000`, `-0500`, …). -/
def parseZoneTok (l : List Char) : Option (Bool × Nat × Nat) :=
  match l with
  | sign :: a :: b :: c :: d :: [] =>
    if (sign = '+' || sign = '-') && [a, b, c, d].all isDigitCh then
      some (sign = '-', digitValue a * 10 + digitValue b,
            digitValue c * 10 + digitValue d)
    else none
  | _ => none

/-- Model of `email.utils.parsedate_to_datetime` restricted to the
Twitter-style layout (see the section comment). -/
def parsedate (s : String) : Option TwDate :=
  match splitWs s.data with
  | [w, mon, d, tm, tz, yr] =>
    if dayNames.contains (String.mk (lowerChars w)) then do
      let m ← monthIndex (String.mk (lowerChars mon))
      let dd ← parseNatChars d
      let (hv, mv, sv) ← parseTimeTok tm
      let (neg, zh, zm) ← parseZoneTok tz
      let y ← parseNatChars yr
      some ⟨y, m, dd, hv, mv, sv, neg, zh, zm⟩
    else none
  | _ => none

/-- Last decimal digit as a character. -/
def digCh (n : Nat) : Char := Nat.digitChar (n % 10)

/-- Two-digit zero-padded numeral, as `datetime.isoformat` prints fields. -/
def pad2 (n : Nat) : List Char := [digCh (n / 10), digCh n]

/-- Four-digit zero-padded numeral for the year. -/
def pad4 (n : Nat) : List Char :=
  [digCh (n / 1000), digCh (n / 100), digCh (n / 10), digCh n]

/-- Character content of `datetime.isoformat()` for a zero-microsecond,
offset-aware datetime: `YYYY-MM-DDTHH:MM:SS±HH:MM`. -/
def isoChars (d : TwDate) : List Char :=
  pad4 d.year ++ '-' :: pad2 d.month ++ '-' :: pad2 d.day ++
  'T' :: pad2 d.hour ++ ':' :: pad2 d.minute ++ ':' :: pad2 d.second ++
  (if d.tzNeg then '-' else '+') :: pad2 d.tzHH ++ ':' :: pad2 d.tzMM

/-- Formatter `datetime.isoformat()` for the parsed timestamps in scope. -/
def isoOfDate (d : TwDate) : String := String.mk (isoChars d)

/-- Function `parse_twitter_date` from `verify_tweets.py` (lines 26–39).  The
argument is `Option String` because Python callers may pass `None`
(`if not date_string` treats `None` and `""` alike).  On a parse failure
the original string is returned unchanged. -/
def parse_twitter_date (s : Option String) : String :=
  match s with
  | none => ""
  | some str =>
    if str = "" then ""
    else
      match parsedate str with
      | some d => isoOfDate d
      | none => str

/- ### Classifier Client: scorer and incident verdict -/

/-- Outcome of one call to the external oracle: a textual response, or a
transport failure (any exception raised by the client library). -/
inductive OracleResult where
  | ok (resp : String)
  | err
deriving DecidableEq, Repr

/-- The value stored in the `fire_related_score` field: Python lets
`get_fire_related_score` return either an `int` or a `str`. -/
inductive ScoreVal where
  | int (n : Int)
  | str (s : String)
deriving DecidableEq, Repr

/-- Python `s[:n]` — truncation to the first `n` characters. -/
def pyTake (n : Nat) (s : String) : String := String.mk (s.data.take n)

/-- Python `str.strip()` (whitespace trim; ASCII range suffices here). -/
def strip (s : String) : String :=
  String.mk (((s.data.dropWhile isWs).reverse.dropWhile isWs).reverse)

/-- Regex word character (`\w`), ASCII range. -/
def isWordChar (c : Char) : Bool := c.isAlphanum || c = '_'

/-- Regex `\b` immediately after a digit: end of input or a non-word character. -/
def boundaryAfterDigit : List Char → Bool
  | [] => true
  | c :: _ => !isWordChar c

/-- Model of `re.search(r'\b(10|[0-9])\b', s)` followed by `int(match.group(1))`:
scan left to right for the first position at a word boundary where either
`10` or a single digit is followed by a word boundary; `10` is tried
first at each position, as in the regex alternation. `prev` is the
character before the current position (`none` at the start). -/
def findScoreTok : Option Char → List Char → Option Int
  | _, [] => none
  | prev, c :: rest =>
    if !(prev.elim false isWordChar) then
      if c = '1' && rest.head? = some '0' && boundaryAfterDigit rest.tail then
        some 10
      else if isDigitCh c && boundaryAfterDigit rest then
        some ((c.toNat : Int) - 48)
      else findScoreTok (some c) rest
    else findScoreTok (some c) rest

/-- Function `get_fire_related_score` from `verify_tweets.py` (lines 41–66).  The
prompt embeds `content[:2000]`; the oracle is modelled as a function of
that truncated text.  A transport failure returns `""`; a response with a
standalone digit-or-`10` token returns that integer; any other response
is returned as the stripped response string itself. -/
def get_fire_related_score (scoreOracle : String → OracleResult)
    (content : String) : ScoreVal :=
  match scoreOracle (pyTake 2000 content) with
  | .err => .str ""
  | .ok resp =>
    let answer := strip resp
    match findScoreTok none answer.data with
    | some n => .int n
    | none => .str answer

/-- Function `verify_fire_incident` from `verify_tweets.py` (lines 68–98).  The
prompt embeds `text[:4000]` and the URL; the response is stripped and
returned; any exception yields `"no"`. -/
def verify_fire_incident (classify : String → String → OracleResult)
    (text url : String) : String :=
  match classify (pyTake 4000 text) url with
  | .ok ans => strip ans
  | .err => "no"

/-- Test `verification_result.lower().startswith("yes")`. -/
def startsWithYes (s : String) : Bool :=
  List.isPrefixOf "yes".data (lowerChars s.data)

/- ### Data model: posts, authors, ledger entries -/

/-- A post's `author` object; only `userName` is read by the core
(`author.get('userName', 'Unknown')`). -/
structure Author where
  userName : Option String
deriving DecidableEq, Repr

/-- A raw candidate post as handed to `verify_and_save_tweets`.  Each field
mirrors a JSON key: the outer `Option` is key presence (`tweet.get`), the
inner `Option` (where present) distinguishes a JSON `null` value — the one
value on which the engine body can actually raise (`None.strip()`). -/
structure Tweet where
  id : Option String
  text : Option (Option String)
  url : Option String
  createdAt : Option (Option String)
  author : Option Author
deriving DecidableEq, Repr

/-- One object of the JSON-ledger array.  `tweet_id` is `Option` because
the entries built by `verify_and_save_tweets` omit the key (source
comment: "excluding tweet_id"), while older ledger files carry it;
`item.get('tweet_id')` then yields `None` for the former. -/
structure Entry where
  tweet_id : Option String
  title : String
  content : String
  published_date : String
  url : String
  source : String
  fire_related_score : ScoreVal
  verification_result : String
  verified_at : String
deriving DecidableEq, Repr

/-- The ledger entry built at `verify_tweets.py` lines 511–521: note the
absence of a `tweet_id` key and the 100-character title truncation. -/
def mkEntry (text url created_at username : String) (score : ScoreVal)
    (vr verified_at : String) : Entry :=
  { tweet_id := none
    title := if text.length > 100 then pyTake 100 text ++ "..." else text
    content := text
    published_date := created_at
    url := url
    source := username
    fire_related_score := score
    verification_result := vr
    verified_at := verified_at }

/- ### Persistence Layer: the JSON ledger (`update_live_json`) -/

/-- State of the ledger file on disk: absent, present-but-unparsable, or a
parsed JSON array of entries. -/
inductive LedgerFile where
  | absent
  | corrupt
  | good (entries : List Entry)
deriving DecidableEq, Repr

/-- Function `update_live_json` from `verify_tweets.py` (lines 100–120), as a
transition on the file state.  The whole body runs under one
`try/except`: a parse failure on an existing file propagates to the
`except` and leaves the file untouched (the new entry is NOT persisted);
an absent file yields `data = []`; the duplicate check compares
`entry.get('tweet_id')` against every `item.get('tweet_id')` (`None`
equals `None` in Python).  `writeFails` models an exception raised while
rewriting the file, also caught by the same `except`; the previous
content is kept. -/
def update_live_json (st : LedgerFile) (writeFails : Bool) (e : Entry) :
    LedgerFile :=
  match st with
  | .corrupt => .corrupt
  | .absent => if writeFails then .absent else .good [e]
  | .good ds =>
    if e.tweet_id ∈ ds.map (fun x => x.tweet_id) then .good ds
    else if writeFails then .good ds else .good (ds ++ [e])

/- ### VerificationEngine: `verify_and_save_tweets` and `main`'s gate -/

/-- Processing of one tweet inside the `for` loop of
`verify_and_save_tweets` (lines 487–537), up to the persistence calls.
`Except.error ()` is an exception escaping the loop body (only a JSON
`null` text can raise here: `tweet.get('text','')` returns `None` and
`None.strip()` raises `AttributeError`); it is caught by the per-tweet
`except` in the caller.  `Except.ok none` is a skipped tweet, `Except.ok
(some e)` a verified one with its ledger entry. -/
def processTweet (classify : String → String → OracleResult)
    (scoreOracle : String → OracleResult) (verifiedAt : String)
    (t : Tweet) : Except Unit (Option Entry) :=
  match t.text.getD (some "") with
  | none => .error ()
  | some text =>
    let url := t.url.getD ""
    let created_at := parse_twitter_date (t.createdAt.getD (some ""))
    let username := match t.author with
      | none => "Unknown"
      | some a => a.userName.getD "Unknown"
    if strip text = "" then .ok none
    else
      let vr := verify_fire_incident classify text url
      if startsWithYes vr then
        let score := get_fire_related_score scoreOracle text
        .ok (some (mkEntry text url created_at username score vr verifiedAt))
      else .ok none

/-- Mutable state of one verification run: the live JSON ledger file, the
spreadsheet rows (modelled as the list of appended rows; formatting is
cosmetic), and `verified_count`. -/
structure RunState where
  ledger : LedgerFile
  excel : List Entry
  count : Nat
deriving DecidableEq, Repr

/-- One iteration of the engine loop: exceptions and skips leave the state
unchanged (`except ... continue`); a verified tweet is appended to both
sinks and counted.  Note `verified_count` is incremented regardless of
whether `update_live_json` actually wrote. -/
def stepTweet (classify : String → String → OracleResult)
    (scoreOracle : String → OracleResult) (verifiedAt : String)
    (writeFails : Bool) (st : RunState) (t : Tweet) : RunState :=
  match processTweet classify scoreOracle verifiedAt t with
  | .error _ => st
  | .ok none => st
  | .ok (some e) =>
    { ledger := update_live_json st.ledger writeFails e
      excel := st.excel ++ [e]
      count := st.count + 1 }

/-- Function `verify_and_save_tweets` (lines 460–545): a fresh, timestamped (hence
initially absent) pair of sink files, then the loop over the input. -/
def verify_and_save_tweets (classify : String → String → OracleResult)
    (scoreOracle : String → OracleResult) (verifiedAt : String)
    (writeFails : Bool) (tweets : List Tweet) : RunState :=
  tweets.foldl (stepTweet classify scoreOracle verifiedAt writeFails)
    ⟨.absent, [], 0⟩

/-- Function `main` (lines 618–624): `send_email_results` — the whole Fanout step —
is invoked exactly once when `verified_count > 0`, otherwise not at all. -/
def fanout_invocations (verified_count : Nat) : Nat :=
  if verified_count > 0 then 1 else 0

/- ### Fanout Layer: `send_email_results` (Notifier) and `send_to_api`
(Uploader) -/

/-- Observable events of one Fanout pass. -/
inductive FEvent where
  | credsError
  | emailSent
  | uploadCalled (argCount : Nat)
  | uploadResultLogged (ok : Bool)
  | exceptionLogged
deriving DecidableEq, Repr

/-- Parameter count of `def send_to_api(json_data_path, verified_count)`
in `utils.py` (line 27). -/
def send_to_api_paramCount : Nat := 2

/-- Argument count at the call site
`send_to_api(excel_path, json_path, verified_count)` in
`send_email_results` (`verify_tweets.py` line 450). -/
def send_email_results_apiArgCount : Nat := 3

/-- Body of `send_to_api` (`utils.py` lines 27–108), reached only if the
call binds: every failure path (missing file, unparsable JSON, HTTP
error, raised exception) is caught inside and returns `False`; HTTP 200
returns `True`.  The function never propagates an exception. -/
def send_to_api (fileExists parseOk : Bool) (httpStatus : Nat) : Bool :=
  if !fileExists then false
  else if !parseOk then false
  else decide (httpStatus = 200)

/-- Function `send_email_results` from `verify_tweets.py` (lines 196–458), as the
event trace of one invocation.  The entire body — credential check, SMTP
send, and the `send_to_api` call — sits inside a single `try/except`:
 * missing credentials return early (no email, no upload);
 * an SMTP failure raises, the `except` logs it, and the `send_to_api`
   call (which comes after the send) is never reached;
 * if the email is sent, `send_to_api(excel_path, json_path,
   verified_count)` is evaluated: binding 3 arguments to a 2-parameter
   function raises `TypeError`, which the same `except` catches, so the
   upload body never runs; had the arity matched, its Boolean result
   would be logged. -/
def send_email_results (credsOk emailSendOk : Bool)
    (uploadOutcome : Bool) : List FEvent :=
  if !credsOk then [.credsError]
  else if !emailSendOk then [.exceptionLogged]
  else if send_email_results_apiArgCount = send_to_api_paramCount then
    [.emailSent, .uploadCalled send_email_results_apiArgCount,
     .uploadResultLogged uploadOutcome]
  else [.emailSent, .exceptionLogged]

/-- Whether a Fanout trace ever reached the Uploader. -/
def uploaderReached (evs : List FEvent) : Bool :=
  evs.any (fun ev => match ev with
    | .uploadCalled _ => true
    | _ => false)

/- ### Deduplicator: `deduplicate_tweets` from `tweet_fire_search.py` -/

/-- The dedup key: `tweet.get('id')` filtered through Python truthiness
(`if tweet_id and ...`): a missing id or an empty-string id gives no
key. -/
def tweetKey (t : Tweet) : Option String :=
  match t.id with
  | some s => if s = "" then none else some s
  | none => none

/-- The loop of `deduplicate_tweets` (lines 146–157): `seen` is the
`seen_ids` set accumulated so far. -/
def dedupGo (seen : List String) : List Tweet → List Tweet
  | [] => []
  | t :: ts =>
    match tweetKey t with
    | none => dedupGo seen ts
    | some s =>
      if s ∈ seen then dedupGo seen ts else t :: dedupGo (s :: seen) ts

/-- Function `deduplicate_tweets(tweets)`: first occurrence of each truthy id wins,
order preserved, keyless posts dropped. -/
def deduplicate_tweets (tweets : List Tweet) : List Tweet := dedupGo [] tweets

/-- Specification-side restatement of the dedup contract, written from the
spec's words ("preserving first-seen order, keyed by id; posts with a
missing/empty id are dropped"): keep each keyed post and delete every
later post with the same key.  Used only to be compared with the
source-derived `deduplicate_tweets`. -/
def firstOccurrences : List Tweet → List Tweet
  | [] => []
  | t :: ts =>
    match tweetKey t with
    | none => firstOccurrences ts
    | some s => t :: firstOccurrences (ts.filter (fun u => tweetKey u ≠ some s))
termination_by l => l.length
decreasing_by
  · simp
  · exact Nat.lt_succ_of_le (List.length_filter_le _ _)

/- ### Historical-date migration: `fix_existing_json_dates` -/

/-- One object of a ledger file as seen by the migration: the
`published_date` field (absent, or some string) plus all other fields,
which the migration never touches, collapsed into `payload`. -/
structure JRec where
  published_date : Option String
  payload : String
deriving DecidableEq, Repr

/-- The per-item body of the migration loop (`verify_tweets.py` lines
554–560): only present, truthy (nonempty) `published_date` values are
re-parsed; the item is rewritten — and counted — only when the parse
changed the string. -/
def fixRec (r : JRec) : JRec × Bool :=
  match r.published_date with
  | none => (r, false)
  | some d =>
    if d = "" then (r, false)
    else if parse_twitter_date (some d) = d then (r, false)
    else ({ r with published_date := some (parse_twitter_date (some d)) }, true)

/-- Function `fix_existing_json_dates` (lines 547–571) on a parsed ledger: the
in-memory array after the loop, and `fixed_count`.  The file is rewritten
iff `fixed_count > 0`. -/
def fix_existing_json_dates : List JRec → List JRec × Nat
  | [] => ([], 0)
  | r :: rs =>
    let fr := fixRec r
    let rest := fix_existing_json_dates rs
    (fr.1 :: rest.1, (if fr.2 then 1 else 0) + rest.2)

/- ### Time window: `is_within_hours` from `clean_tweets.py` -/

/-- Function `is_within_hours(tweet_date, hours)` (lines 16–23), over timestamps in
seconds: `None` dates are rejected; otherwise the tweet passes iff
`now - tweet_date` is at most `hours * 3600` seconds.  `now` is the
wall-clock instant, made explicit. -/
def is_within_hours (tweet_date : Option Int) (hours : Int) (now : Int) :
    Bool :=
  match tweet_date with
  | none => false
  | some d => decide (now - d ≤ hours * 3600)

/- ### Theorems -/

/-- Claim C10: the time-window predicate only bounds age, not futurity —
for every non-`None` instant `d` and hours `h`, `is_within_hours` is true
iff `now - d` is at most `h` hours in seconds, so any instant at or after
`now` is always accepted (for a nonnegative window), and a `None`
(unparsable) instant always yields `false`. -/
theorem C10_within_window_bounds_age_only (d h now : Int) :
    is_within_hours none h now = false ∧
    (is_within_hours (some d) h now = true ↔ now - d ≤ h * 3600) ∧
    (now ≤ d → 0 ≤ h → is_within_hours (some d) h now = true) := by
  refine ⟨rfl, by simp [is_within_hours], ?_⟩
  intro hfut hpos
  simp only [is_within_hours, decide_eq_true_eq]
  nlinarith

/-- Witness for C10: a timestamp 100 seconds in the future is accepted by
a 74-hour window. -/
theorem C10_within_window_witness :
    is_within_hours (some 100) 74 0 = true :=
  (C10_within_window_bounds_age_only 100 74 0).2.2 (by norm_num) (by norm_num)

/-- Claim C8, counterexample: with an existing but unparsable ledger file,
`update_live_json` does NOT treat the content as an empty array and
persist the record as a one-element array — the parse error is caught by
the surrounding `except` and the file is left unchanged, the record
unpersisted. -/
theorem C8_corrupt_ledger_counterexample :
    update_live_json .corrupt false
      ⟨none, "t", "t", "", "u", "a", .int 9, "yes", "v"⟩ = .corrupt ∧
    LedgerFile.corrupt ≠
      .good [⟨none, "t", "t", "", "u", "a", .int 9, "yes", "v"⟩] := by
  exact ⟨rfl, by decide⟩

/-- Claim C8, amended: only an absent ledger file is treated as an empty
array; an existing-but-unparsable file makes the append a caught, logged
no-op (the record is not persisted).  A write failure is likewise caught,
leaving the previous file state; in particular a run whose every ledger
write fails still completes with the ledger file never created, and no
error escapes (`update_live_json` and the engine are total). -/
theorem C8_ledger_append_amended :
    (∀ (e : Entry) (wf : Bool) (ds : List Entry),
      update_live_json .corrupt wf e = .corrupt ∧
      update_live_json .absent wf e = (if wf then .absent else .good [e]) ∧
      update_live_json (.good ds) wf e =
        (if e.tweet_id ∈ ds.map (fun x => x.tweet_id) then .good ds
         else if wf then .good ds else .good (ds ++ [e]))) ∧
    (∀ (classify : String → String → OracleResult)
       (scoreOracle : String → OracleResult) (verifiedAt : String)
       (tweets : List Tweet),
      (verify_and_save_tweets classify scoreOracle verifiedAt true
        tweets).ledger = .absent) := by
  constructor
  · intro e wf ds
    refine ⟨rfl, rfl, rfl⟩
  · intro classify scoreOracle verifiedAt tweets
    have hkeep : ∀ (st : LedgerFile) (e : Entry),
        update_live_json st true e = st := by
      intro st e
      cases st with
      | absent => rfl
      | corrupt => rfl
      | good ds =>
        simp only [update_live_json]
        split <;> rfl
    have hfold : ∀ (l : List Tweet) (st : RunState),
        (l.foldl (stepTweet classify scoreOracle verifiedAt true) st).ledger
          = st.ledger := by
      intro l
      induction l with
      | nil => intro st; rfl
      | cons t ts ih =>
        intro st
        rw [List.foldl_cons, ih]
        unfold stepTweet
        cases processTweet classify scoreOracle verifiedAt t with
        | error e => rfl
        | ok o =>
          cases o with
          | none => rfl
          | some e => simp [hkeep]
    exact hfold tweets ⟨.absent, [], 0⟩

/-- Claim C2: evaluation of the Fanout step refuting independence of the
two sub-steps.  With valid credentials, when the SMTP send raises, the
Uploader call is never made (the `send_to_api` call sits after the send
inside the same `try`); and even when the email is sent, the Uploader
call itself raises `TypeError` — the call site passes three arguments to
the two-parameter `send_to_api` — which the Notifier's own `except`
catches, so the Uploader body never runs in any trace. -/
theorem C2_fanout_not_independent_eval :
    uploaderReached (send_email_results true false true) = false ∧
    uploaderReached (send_email_results true true true) = false ∧
    send_email_results true false true = [.exceptionLogged] ∧
    send_email_results true true true = [.emailSent, .exceptionLogged] := by
  decide

/-- Claim C1: evaluation at the failing input.  Two posts with distinct
ids `"1"` and `"2"`, both Positive with score 9: `verified_count` ends at
2 but the ledger holds exactly one entry — the second append is skipped
because both constructed entries omit `tweet_id`, so the duplicate check
(`entry.get('tweet_id') not in existing_ids`) compares `None` with `None`
and wrongly reports the second record as already present.  This refutes
"after each append the JSON ledger contains exactly one entry per record
appended so far". -/
theorem C1_ledger_key_bug_eval :
    (verify_and_save_tweets (fun _ _ => .ok "yes") (fun _ => .ok "9")
      "2025-07-29T01:06:47" false
      [⟨some "1", some (some "House fire destroys home in Texas"),
        some "https://x.com/a/1",
        some (some "Mon Jul 28 14:45:00 +0000 2025"), some ⟨some "a"⟩⟩,
       ⟨some "2", some (some "Apartment fire in Ohio"),
        some "https://x.com/b/2",
        some (some "Mon Jul 28 15:00:00 +0000 2025"), some ⟨some "b"⟩⟩])
    = ⟨.good [⟨none, "House fire destroys home in Texas",
               "House fire destroys home in Texas",
               "2025-07-28T14:45:00+00:00", "https://x.com/a/1", "a",
               .int 9, "yes", "2025-07-29T01:06:47"⟩],
       [⟨none, "House fire destroys home in Texas",
         "House fire destroys home in Texas",
         "2025-07-28T14:45:00+00:00", "https://x.com/a/1", "a",
         .int 9, "yes", "2025-07-29T01:06:47"⟩,
        ⟨none, "Apartment fire in Ohio", "Apartment fire in Ohio",
         "2025-07-28T15:00:00+00:00", "https://x.com/b/2", "b",
         .int 9, "yes", "2025-07-29T01:06:47"⟩],
       2⟩ := by
  decide

/-- Claim C3: the end-to-end scenario.  For the single post with id `"1"`,
text `"House fire destroys home in Texas"`, createdAt
`"Mon Jul 28 14:45:00 +0000 2025"`, with the Classifier answering yes and
the scorer answering 9: the ledger gains exactly one record whose
`published_date` is the canonical instant `2025-07-28T14:45:00+00:00` and
whose `fire_related_score` is 9, and the Fanout step is invoked exactly
once (`verified_count = 1 > 0`). -/
theorem C3_end_to_end_scenario :
    (verify_and_save_tweets (fun _ _ => .ok "yes") (fun _ => .ok "9")
      "2025-07-29T01:06:47" false
      [⟨some "1", some (some "House fire destroys home in Texas"),
        some "https://x.com/a/1",
        some (some "Mon Jul 28 14:45:00 +0000 2025"), some ⟨some "a"⟩⟩])
    = ⟨.good [⟨none, "House fire destroys home in Texas",
               "House fire destroys home in Texas",
               "2025-07-28T14:45:00+00:00", "https://x.com/a/1", "a",
               .int 9, "yes", "2025-07-29T01:06:47"⟩],
       [⟨none, "House fire destroys home in Texas",
         "House fire destroys home in Texas",
         "2025-07-28T14:45:00+00:00", "https://x.com/a/1", "a",
         .int 9, "yes", "2025-07-29T01:06:47"⟩],
       1⟩ ∧
    fanout_invocations
      (verify_and_save_tweets (fun _ _ => .ok "yes") (fun _ => .ok "9")
        "2025-07-29T01:06:47" false
        [⟨some "1", some (some "House fire destroys home in Texas"),
          some "https://x.com/a/1",
          some (some "Mon Jul 28 14:45:00 +0000 2025"),
          some ⟨some "a"⟩⟩]).count = 1 := by
  constructor
  · decide
  · decide

/-- With a classifier whose every call fails, the wrapper returns `"no"`,
so each loop iteration leaves the run state unchanged. -/
theorem stepTweet_failing_classifier (scoreOracle : String → OracleResult)
    (verifiedAt : String) (writeFails : Bool) (st : RunState) (t : Tweet) :
    stepTweet (fun _ _ => .err) scoreOracle verifiedAt writeFails st t
      = st := by
  unfold stepTweet processTweet
  cases ht : t.text.getD (some "") with
  | none => rfl
  | some text =>
    simp only
    by_cases hs : strip text = ""
    · simp [hs]
    · simp [hs, verify_fire_incident,
        show startsWithYes "no" = false from by decide]

/-- Claim C4: partial-failure isolation.  First conjunct: with a
Classifier Client that fails on every call, a run over any candidate list
(in particular any 10-post list) completes as a total function, produces
zero verified records, zero sink writes, and a `verified_count` of 0, so
Fanout is not invoked.  Second conjunct: a post whose loop-body
processing raises is absorbed by the per-post `except` — the fold over
`t :: ts` equals the fold over `ts` — so the engine proceeds with the
remaining posts. -/
theorem C4_failing_classifier_safe :
    (∀ (scoreOracle : String → OracleResult) (verifiedAt : String)
       (writeFails : Bool) (tweets : List Tweet),
      verify_and_save_tweets (fun _ _ => .err) scoreOracle verifiedAt
          writeFails tweets = ⟨.absent, [], 0⟩ ∧
      fanout_invocations
        (verify_and_save_tweets (fun _ _ => .err) scoreOracle verifiedAt
          writeFails tweets).count = 0) ∧
    (∀ (classify : String → String → OracleResult)
       (scoreOracle : String → OracleResult) (verifiedAt : String)
       (writeFails : Bool) (t : Tweet) (ts : List Tweet) (st : RunState),
      processTweet classify scoreOracle verifiedAt t = .error () →
      (t :: ts).foldl (stepTweet classify scoreOracle verifiedAt writeFails)
          st
        = ts.foldl (stepTweet classify scoreOracle verifiedAt writeFails)
            st) := by
  constructor
  · intro scoreOracle verifiedAt writeFails tweets
    have hfold : ∀ (l : List Tweet) (st : RunState),
        l.foldl (stepTweet (fun _ _ => .err) scoreOracle verifiedAt
          writeFails) st = st := by
      intro l
      induction l with
      | nil => intro st; rfl
      | cons t ts ih =>
        intro st
        rw [List.foldl_cons, stepTweet_failing_classifier, ih]
    refine ⟨hfold tweets ⟨.absent, [], 0⟩, ?_⟩
    rw [show verify_and_save_tweets (fun _ _ => .err) scoreOracle verifiedAt
          writeFails tweets = ⟨.absent, [], 0⟩ from
        hfold tweets ⟨.absent, [], 0⟩]
    rfl
  · intro classify scoreOracle verifiedAt writeFails t ts st herr
    rw [List.foldl_cons]
    congr 1
    unfold stepTweet
    rw [herr]

/-- Witness for C4: a 10-post run with the always-failing classifier ends
with no ledger file, no spreadsheet rows and count 0; and a post whose
body raises (a JSON `null` text, on which `None.strip()` raises) is
skipped while the fold continues. -/
theorem C4_failing_classifier_witness :
    verify_and_save_tweets (fun _ _ => .err) (fun _ => .err) "t" false
      (List.replicate 10
        ⟨some "1", some (some "House fire"), some "u", none, none⟩)
      = ⟨.absent, [], 0⟩ ∧
    ([⟨some "1", some none, none, none, none⟩] : List Tweet).foldl
        (stepTweet (fun _ _ => .ok "yes") (fun _ => .ok "9") "t" false)
        ⟨.absent, [], 0⟩
      = ([] : List Tweet).foldl
          (stepTweet (fun _ _ => .ok "yes") (fun _ => .ok "9") "t" false)
          ⟨.absent, [], 0⟩ :=
  ⟨(C4_failing_classifier_safe.1 (fun _ => .err) "t" false _).1,
   C4_failing_classifier_safe.2 (fun _ _ => .ok "yes") (fun _ => .ok "9")
     "t" false ⟨some "1", some none, none, none, none⟩ [] ⟨.absent, [], 0⟩
     rfl⟩

/-- A matched standalone digit-or-`10` token always yields an integer in
`[0, 10]`. -/
theorem findScoreTok_range (l : List Char) :
    ∀ (prev : Option Char) (n : Int),
      findScoreTok prev l = some n → 0 ≤ n ∧ n ≤ 10 := by
  induction l with
  | nil => intro prev n h; simp [findScoreTok] at h
  | cons c rest ih =>
    intro prev n h
    unfold findScoreTok at h
    split at h
    · split at h
      · cases h
        norm_num
      · split at h
        · rename_i hdig
          cases h
          have hd : isDigitCh c = true := by
            rcases Bool.and_eq_true_iff.mp hdig with ⟨h1, _⟩
            exact h1
          simp only [isDigitCh, Bool.and_eq_true, decide_eq_true_eq] at hd
          omega
        · exact ih (some c) n h
    · exact ih (some c) n h

/-- Claim C6, counterexample: a transport-successful oracle response
containing no standalone digit-or-`10` token — here `"unknown"` — makes
`get_fire_related_score` return the raw response string itself (`return
answer`), which is neither an integer in `[0, 10]` nor the `""` marker
used for transport failures. -/
theorem C6_score_counterexample :
    get_fire_related_score (fun _ => .ok "unknown") "some text"
      = .str "unknown" ∧
    ScoreVal.str "unknown" ≠ .str "" := by
  decide

/-- Claim C6, amended: a transport failure yields the `""` marker; a
response containing a standalone digit-or-`10` token (searched over the
stripped response; the prompt carries the text truncated to 2000
characters) yields that integer, always in `[0, 10]`; a response with no
such token yields the stripped raw response string — not the marker. -/
theorem C6_score_amended (scoreOracle : String → OracleResult)
    (content : String) :
    (scoreOracle (pyTake 2000 content) = .err →
      get_fire_related_score scoreOracle content = .str "") ∧
    (∀ resp, scoreOracle (pyTake 2000 content) = .ok resp →
      (∀ n, findScoreTok none (strip resp).data = some n →
        get_fire_related_score scoreOracle content = .int n ∧
          0 ≤ n ∧ n ≤ 10) ∧
      (findScoreTok none (strip resp).data = none →
        get_fire_related_score scoreOracle content = .str (strip resp))) := by
  constructor
  · intro herr
    unfold get_fire_related_score
    rw [herr]
  · intro resp hok
    constructor
    · intro n htok
      refine ⟨?_, findScoreTok_range (strip resp).data none n htok⟩
      unfold get_fire_related_score
      rw [hok]
      simp [htok]
    · intro htok
      unfold get_fire_related_score
      rw [hok]
      simp [htok]

/-- Witness for C6 (amended): the response `"9"` parses to the integer 9,
inside the range. -/
theorem C6_score_amended_witness :
    get_fire_related_score (fun _ => .ok "9") "some text" = .int 9 ∧
      (0 : Int) ≤ 9 ∧ (9 : Int) ≤ 10 :=
  ((C6_score_amended (fun _ => .ok "9") "some text").2 "9" rfl).1 9 (by decide)

/-- Claim C9: a missing, JSON-`null`, or empty `createdAt` never blocks
classification or persistence — `parse_twitter_date` returns `""` for all
three, and a Positive-verdict post with such a timestamp is still turned
into a ledger entry whose `published_date` is `""` and appended. -/
theorem C9_missing_date_still_persisted
    (classify : String → String → OracleResult)
    (scoreOracle : String → OracleResult) (verifiedAt : String)
    (t : Tweet) (txt : String) :
    (t.createdAt = none ∨ t.createdAt = some none ∨
      t.createdAt = some (some "")) →
    t.text = some (some txt) →
    strip txt ≠ "" →
    startsWithYes (verify_fire_incident classify txt (t.url.getD "")) =
      true →
    ∃ e : Entry, processTweet classify scoreOracle verifiedAt t
        = .ok (some e) ∧
      e.published_date = "" ∧
      update_live_json .absent false e = .good [e] := by
  intro hdate htext hne hyes
  have hparse : parse_twitter_date (t.createdAt.getD (some "")) = "" := by
    rcases hdate with h | h | h <;> rw [h] <;> rfl
  refine ⟨mkEntry txt (t.url.getD "")
    (parse_twitter_date (t.createdAt.getD (some "")))
    (match t.author with
     | none => "Unknown"
     | some a => a.userName.getD "Unknown")
    (get_fire_related_score scoreOracle txt)
    (verify_fire_incident classify txt (t.url.getD "")) verifiedAt,
    ?_, ?_, rfl⟩
  · unfold processTweet
    rw [htext]
    simp only [Option.getD_some]
    rw [if_neg hne, if_pos hyes]
  · simpa [mkEntry] using hparse

/-- Witness for C9: a concrete Positive post whose `createdAt` key is
absent is persisted with an empty `published_date`. -/
theorem C9_missing_date_witness :
    ∃ e : Entry,
      processTweet (fun _ _ => .ok "yes") (fun _ => .ok "9") "t"
          ⟨some "9", some (some "Fire damage in Ohio"), some "u", none,
            none⟩
        = .ok (some e) ∧
      e.published_date = "" ∧
      update_live_json .absent false e = .good [e] :=
  C9_missing_date_still_persisted (fun _ _ => .ok "yes") (fun _ => .ok "9")
    "t" ⟨some "9", some (some "Fire damage in Ohio"), some "u", none, none⟩
    "Fire damage in Ohio" (Or.inl rfl) rfl (by decide) (by decide)

/-- The dedup loop output is a sublist (order-preserving selection) of its
input. -/
theorem dedupGo_sublist (l : List Tweet) :
    ∀ seen, (dedupGo seen l).Sublist l := by
  induction l with
  | nil => intro seen; simp [dedupGo]
  | cons t ts ih =>
    intro seen
    unfold dedupGo
    cases hk : tweetKey t with
    | none => exact (ih seen).cons t
    | some s =>
      by_cases hm : s ∈ seen
      · show (if s ∈ seen then dedupGo seen ts
          else t :: dedupGo (s :: seen) ts).Sublist (t :: ts)
        rw [if_pos hm]
        exact (ih seen).cons t
      · show (if s ∈ seen then dedupGo seen ts
          else t :: dedupGo (s :: seen) ts).Sublist (t :: ts)
        rw [if_neg hm]
        exact (ih (s :: seen)).cons₂ t

/-- Every member of the dedup loop output has a truthy key not yet seen at
loop entry. -/
theorem mem_dedupGo (l : List Tweet) :
    ∀ seen t, t ∈ dedupGo seen l →
      ∃ s, tweetKey t = some s ∧ s ∉ seen := by
  induction l with
  | nil => intro seen t h; simp [dedupGo] at h
  | cons u ts ih =>
    intro seen t h
    unfold dedupGo at h
    cases hk : tweetKey u with
    | none =>
      rw [hk] at h
      exact ih seen t h
    | some s =>
      rw [hk] at h
      have h2 : t ∈ if s ∈ seen then dedupGo seen ts
          else u :: dedupGo (s :: seen) ts := h
      by_cases hm : s ∈ seen
      · rw [if_pos hm] at h2
        exact ih seen t h2
      · rw [if_neg hm] at h2
        rcases List.mem_cons.mp h2 with rfl | h3
        · exact ⟨s, hk, hm⟩
        · obtain ⟨s2, hs2, hnot⟩ := ih (s :: seen) t h3
          exact ⟨s2, hs2, fun hc => hnot (List.mem_cons_of_mem _ hc)⟩

/-- The keys of the dedup loop output are pairwise distinct. -/
theorem dedupGo_keys_nodup (l : List Tweet) :
    ∀ seen, ((dedupGo seen l).map tweetKey).Nodup := by
  induction l with
  | nil => intro seen; simp [dedupGo]
  | cons u ts ih =>
    intro seen
    unfold dedupGo
    cases hk : tweetKey u with
    | none => exact ih seen
    | some s =>
      show ((if s ∈ seen then dedupGo seen ts
        else u :: dedupGo (s :: seen) ts).map tweetKey).Nodup
      by_cases hm : s ∈ seen
      · rw [if_pos hm]
        exact ih seen
      · rw [if_neg hm]
        simp only [List.map_cons, List.nodup_cons]
        refine ⟨?_, ih (s :: seen)⟩
        intro hmem
        obtain ⟨x, hx, hkx⟩ := List.mem_map.mp hmem
        obtain ⟨s2, hs2, hnot⟩ := mem_dedupGo ts (s :: seen) x hx
        rw [hk, hs2, Option.some.injEq] at hkx
        exact hnot (hkx ▸ List.mem_cons_self s2 seen)

/-- Every truthy id of the input not already seen is represented in the
dedup loop output. -/
theorem dedupGo_covers (l : List Tweet) :
    ∀ seen t s, t ∈ l → tweetKey t = some s → s ∉ seen →
      ∃ u, u ∈ dedupGo seen l ∧ tweetKey u = some s := by
  induction l with
  | nil => intro seen t s h; simp at h
  | cons u ts ih =>
    intro seen t s hmem hk hns
    rcases List.mem_cons.mp hmem with rfl | hmem2
    · unfold dedupGo
      rw [hk]
      show ∃ v, v ∈ (if s ∈ seen then dedupGo seen ts
        else t :: dedupGo (s :: seen) ts) ∧ tweetKey v = some s
      rw [if_neg hns]
      exact ⟨t, List.mem_cons_self t _, hk⟩
    · unfold dedupGo
      cases hk2 : tweetKey u with
      | none => exact ih seen t s hmem2 hk hns
      | some s2 =>
        show ∃ v, v ∈ (if s2 ∈ seen then dedupGo seen ts
          else u :: dedupGo (s2 :: seen) ts) ∧ tweetKey v = some s
        by_cases hm : s2 ∈ seen
        · rw [if_pos hm]
          exact ih seen t s hmem2 hk hns
        · rw [if_neg hm]
          by_cases hss : s = s2
          · exact ⟨u, List.mem_cons_self u _, by rw [hk2, hss]⟩
          · obtain ⟨v, hv, hkv⟩ :=
              ih (s2 :: seen) t s hmem2 hk
                (by simp [List.mem_cons, hss, hns])
            exact ⟨v, List.mem_cons_of_mem _ hv, hkv⟩

/-- The dedup loop equals the spec-side first-occurrence filter, relative
to an arbitrary already-seen set. -/
theorem dedupGo_eq_firstOccurrences (l : List Tweet) :
    ∀ seen, dedupGo seen l = firstOccurrences (l.filter (fun u =>
      match tweetKey u with
      | some s => !(decide (s ∈ seen))
      | none => true)) := by
  induction l with
  | nil => intro seen; simp [dedupGo, firstOccurrences]
  | cons t ts ih =>
    intro seen
    cases hk : tweetKey t with
    | none =>
      have hp : (match tweetKey t with
        | some s => !(decide (s ∈ seen))
        | none => true) = true := by rw [hk]
      rw [List.filter_cons, if_pos (by rw [hp])]
      have hfo : firstOccurrences (t :: (ts.filter (fun u =>
          match tweetKey u with
          | some s => !(decide (s ∈ seen))
          | none => true))) = firstOccurrences (ts.filter (fun u =>
          match tweetKey u with
          | some s => !(decide (s ∈ seen))
          | none => true)) := by
        rw [firstOccurrences.eq_def]
        simp [hk]
      rw [hfo]
      unfold dedupGo
      rw [hk]
      exact ih seen
    | some s =>
      by_cases hm : s ∈ seen
      · have hp : (match tweetKey t with
          | some s2 => !(decide (s2 ∈ seen))
          | none => true) = false := by rw [hk]; simp [hm]
        rw [List.filter_cons, if_neg (by rw [hp]; simp)]
        unfold dedupGo
        rw [hk]
        show (if s ∈ seen then dedupGo seen ts
          else t :: dedupGo (s :: seen) ts) = _
        rw [if_pos hm]
        exact ih seen
      · have hp : (match tweetKey t with
          | some s2 => !(decide (s2 ∈ seen))
          | none => true) = true := by rw [hk]; simp [hm]
        rw [List.filter_cons, if_pos (by rw [hp])]
        have hfo : firstOccurrences (t :: (ts.filter (fun u =>
            match tweetKey u with
            | some s2 => !(decide (s2 ∈ seen))
            | none => true))) = t :: firstOccurrences (((ts.filter (fun u =>
            match tweetKey u with
            | some s2 => !(decide (s2 ∈ seen))
            | none => true))).filter (fun u => tweetKey u ≠ some s)) := by
          rw [firstOccurrences.eq_def]
          simp [hk]
        rw [hfo]
        unfold dedupGo
        rw [hk]
        show (if s ∈ seen then dedupGo seen ts
          else t :: dedupGo (s :: seen) ts) = _
        rw [if_neg hm]
        congr 1
        rw [List.filter_filter]
        have hpt : (fun u => decide (tweetKey u ≠ some s) &&
            match tweetKey u with
            | some s2 => !(decide (s2 ∈ seen))
            | none => true) = (fun u =>
            match tweetKey u with
            | some s2 => !(decide (s2 ∈ s :: seen))
            | none => true) := by
          funext u
          cases hku : tweetKey u with
          | none => simp
          | some s2 =>
            by_cases h1 : s2 = s <;>
              by_cases h2 : s2 ∈ seen <;>
                simp [List.mem_cons, h1, h2]
        rw [hpt]
        exact ih (s :: seen)

/-- Claim C5: the Deduplicator contract.  `deduplicate_tweets` equals the
spec-side first-occurrence filter (first-seen order, keyed by id), its
output is never longer than its input and is an order-preserving sublist
of it, output ids are pairwise distinct, posts with a missing or empty id
are dropped, every truthy input id is represented, and the function is a
pure function of its input (it is a Lean function; stability is the
`firstOccurrences` equation). -/
theorem C5_dedupe_contract (P : List Tweet) :
    deduplicate_tweets P = firstOccurrences P ∧
    (deduplicate_tweets P).length ≤ P.length ∧
    (deduplicate_tweets P).Sublist P ∧
    ((deduplicate_tweets P).map tweetKey).Nodup ∧
    (∀ t ∈ deduplicate_tweets P, ∃ s, t.id = some s ∧ s ≠ "") ∧
    (∀ t ∈ P, ∀ s, tweetKey t = some s →
      ∃ u, u ∈ deduplicate_tweets P ∧ tweetKey u = some s) := by
  have hsub := dedupGo_sublist P []
  refine ⟨?_, hsub.length_le, hsub, dedupGo_keys_nodup P [], ?_, ?_⟩
  · rw [show deduplicate_tweets P = dedupGo [] P from rfl,
        dedupGo_eq_firstOccurrences P []]
    congr 1
    have hall : (fun u => match tweetKey u with
        | some s => !(decide (s ∈ ([] : List String)))
        | none => true) = (fun _ : Tweet => true) := by
      funext u
      cases hku : tweetKey u <;> simp
    rw [hall, List.filter_true]
  · intro t ht
    obtain ⟨s, hs, _⟩ := mem_dedupGo P [] t ht
    unfold tweetKey at hs
    cases hid : t.id with
    | none => rw [hid] at hs; cases hs
    | some s0 =>
      rw [hid] at hs
      have hs2 : (if s0 = "" then none else some s0) = some s := hs
      by_cases h0 : s0 = ""
      · rw [if_pos h0] at hs2
        cases hs2
      · exact ⟨s0, rfl, h0⟩
  · intro t ht s hk
    exact dedupGo_covers P [] t s ht hk (by simp)

/-- Witness for C5: a concrete list with a duplicate id, an empty id and a
missing id; the theorem applied there gives the first-occurrence form and
a representative for id `"1"`. -/
theorem C5_dedupe_witness :
    deduplicate_tweets [⟨some "1", none, none, none, none⟩,
        ⟨some "", none, none, none, none⟩,
        ⟨none, none, none, none, none⟩,
        ⟨some "1", some (some "dup"), none, none, none⟩]
      = firstOccurrences [⟨some "1", none, none, none, none⟩,
        ⟨some "", none, none, none, none⟩,
        ⟨none, none, none, none, none⟩,
        ⟨some "1", some (some "dup"), none, none, none⟩] ∧
    ∃ u, u ∈ deduplicate_tweets [⟨some "1", none, none, none, none⟩,
        ⟨some "", none, none, none, none⟩,
        ⟨none, none, none, none, none⟩,
        ⟨some "1", some (some "dup"), none, none, none⟩] ∧
      tweetKey u = some "1" :=
  ⟨(C5_dedupe_contract _).1,
   (C5_dedupe_contract _).2.2.2.2.2 ⟨some "1", none, none, none, none⟩
     (by decide) "1" (by decide)⟩

/-- Digit characters are never whitespace. -/
theorem digCh_not_ws (n : Nat) : isWs (digCh n) = false := by
  unfold digCh
  have h : n % 10 < 10 := Nat.mod_lt _ (by norm_num)
  set k := n % 10 with hk
  interval_cases k <;> decide

/-- No character of a two-digit numeral is whitespace. -/
theorem pad2_not_ws (n : Nat) : ∀ c ∈ pad2 n, isWs c = false := by
  intro c hc
  simp only [pad2, List.mem_cons, List.not_mem_nil, or_false] at hc
  rcases hc with rfl | rfl <;> exact digCh_not_ws _

/-- No character of a four-digit numeral is whitespace. -/
theorem pad4_not_ws (n : Nat) : ∀ c ∈ pad4 n, isWs c = false := by
  intro c hc
  simp only [pad4, List.mem_cons, List.not_mem_nil, or_false] at hc
  rcases hc with rfl | rfl | rfl | rfl <;> exact digCh_not_ws _

/-- An ISO-formatted timestamp contains no whitespace at all. -/
theorem noWs_isoChars (d : TwDate) : ∀ c ∈ isoChars d, isWs c = false := by
  unfold isoChars
  intro c hc
  rcases List.mem_append.mp hc with h | h
  on_goal 2 =>
    rcases List.mem_cons.mp h with rfl | h
    · decide
    · exact pad2_not_ws _ _ h
  rcases List.mem_append.mp h with h | h
  on_goal 2 =>
    rcases List.mem_cons.mp h with rfl | h
    · cases htz : d.tzNeg <;> decide
    · exact pad2_not_ws _ _ h
  rcases List.mem_append.mp h with h | h
  on_goal 2 =>
    rcases List.mem_cons.mp h with rfl | h
    · decide
    · exact pad2_not_ws _ _ h
  rcases List.mem_append.mp h with h | h
  on_goal 2 =>
    rcases List.mem_cons.mp h with rfl | h
    · decide
    · exact pad2_not_ws _ _ h
  rcases List.mem_append.mp h with h | h
  on_goal 2 =>
    rcases List.mem_cons.mp h with rfl | h
    · decide
    · exact pad2_not_ws _ _ h
  rcases List.mem_append.mp h with h | h
  on_goal 2 =>
    rcases List.mem_cons.mp h with rfl | h
    · decide
    · exact pad2_not_ws _ _ h
  rcases List.mem_append.mp h with h | h
  · exact pad4_not_ws _ _ h
  · rcases List.mem_cons.mp h with rfl | h
    · decide
    · exact pad2_not_ws _ _ h

/-- An ISO-formatted timestamp is nonempty. -/
theorem isoChars_ne_nil (d : TwDate) : isoChars d ≠ [] := by
  simp [isoChars, pad4]

/-- Whitespace-splitting a whitespace-free character list yields the
accumulated prefix glued to the list, as a single token (or nothing if
both are empty). -/
theorem splitWsAux_noWs (l : List Char) :
    ∀ acc, (∀ c ∈ l, isWs c = false) →
      splitWsAux l acc =
        if (acc.reverse ++ l).isEmpty then [] else [acc.reverse ++ l] := by
  induction l with
  | nil =>
    intro acc h
    cases acc <;> simp [splitWsAux]
  | cons c rest ih =>
    intro acc h
    have hc : isWs c = false := h c (List.mem_cons_self c rest)
    unfold splitWsAux
    rw [if_neg (by rw [hc]; exact Bool.false_ne_true)]
    rw [ih (c :: acc) (fun x hx => h x (List.mem_cons_of_mem _ hx))]
    rw [List.reverse_cons, List.append_assoc, List.singleton_append]

/-- Python `str.split()` of a nonempty whitespace-free string is that single
token. -/
theorem splitWs_noWs (l : List Char) (h : ∀ c ∈ l, isWs c = false)
    (hne : l ≠ []) : splitWs l = [l] := by
  unfold splitWs
  rw [splitWsAux_noWs l [] h]
  cases l with
  | nil => exact absurd rfl hne
  | cons c rest => simp

/-- The library date parser rejects every ISO-formatted output of the
formatter: the string holds no whitespace, so tokenization yields a
single token instead of the six-token Twitter layout. -/
theorem parsedate_isoOfDate (d : TwDate) : parsedate (isoOfDate d) = none := by
  unfold parsedate isoOfDate
  rw [show (String.mk (isoChars d)).data = isoChars d from rfl]
  rw [splitWs_noWs (isoChars d) (noWs_isoChars d) (isoChars_ne_nil d)]

/-- ISO-formatted timestamps are nonempty strings. -/
theorem isoOfDate_ne_empty (d : TwDate) : isoOfDate d ≠ "" := by
  intro h
  have h2 := congrArg String.data h
  simp only [isoOfDate] at h2
  exact isoChars_ne_nil d h2

/-- Function `parse_twitter_date` is idempotent on strings: its outputs are fixed
points (canonical ISO strings never re-parse; failed inputs are returned
unchanged). -/
theorem parse_twitter_date_idem (s : String) :
    parse_twitter_date (some (parse_twitter_date (some s)))
      = parse_twitter_date (some s) := by
  have hdef : ∀ x : String, parse_twitter_date (some x) =
      if x = "" then ""
      else match parsedate x with
        | some d => isoOfDate d
        | none => x := fun x => rfl
  by_cases h0 : s = ""
  · have h1 : parse_twitter_date (some s) = "" := by
      rw [hdef, if_pos h0]
    rw [h1, hdef, if_pos rfl]
  · cases hp : parsedate s with
    | some d =>
      have h1 : parse_twitter_date (some s) = isoOfDate d := by
        rw [hdef, if_neg h0, hp]
      rw [h1, hdef, if_neg (isoOfDate_ne_empty d), parsedate_isoOfDate]
    | none =>
      have h1 : parse_twitter_date (some s) = s := by
        rw [hdef, if_neg h0, hp]
      rw [h1, h1]

/-- Unfolding equation for the migration body. -/
theorem fixRec_eq (x : JRec) : fixRec x =
    match x.published_date with
    | none => (x, false)
    | some d =>
      if d = "" then (x, false)
      else if parse_twitter_date (some d) = d then (x, false)
      else ({ x with published_date := some (parse_twitter_date (some d)) },
        true) := rfl

/-- The migration never touches any field other than `published_date`. -/
theorem fixRec_payload (r : JRec) : (fixRec r).1.payload = r.payload := by
  rw [fixRec_eq]
  cases hpd : r.published_date with
  | none => rfl
  | some d =>
    show ((if d = "" then (r, false)
      else if parse_twitter_date (some d) = d then (r, false)
      else ({ r with published_date := some (parse_twitter_date (some d)) },
        true)).1).payload = r.payload
    by_cases hd : d = ""
    · rw [if_pos hd]
    · rw [if_neg hd]
      by_cases hf : parse_twitter_date (some d) = d
      · rw [if_pos hf]
      · rw [if_neg hf]

/-- A record the migration did not count was returned unchanged. -/
theorem fixRec_unchanged (r : JRec) (h : (fixRec r).2 = false) :
    (fixRec r).1 = r := by
  rw [fixRec_eq] at h ⊢
  cases hpd : r.published_date with
  | none => rfl
  | some d =>
    rw [hpd] at h
    show (if d = "" then (r, false)
      else if parse_twitter_date (some d) = d then (r, false)
      else ({ r with published_date := some (parse_twitter_date (some d)) },
        true)).1 = r
    by_cases hd : d = ""
    · rw [if_pos hd]
    · rw [if_neg hd]
      by_cases hf : parse_twitter_date (some d) = d
      · rw [if_pos hf]
      · exfalso
        have h2 : ((if d = "" then (r, false)
          else if parse_twitter_date (some d) = d then (r, false)
          else ({ r with
            published_date := some (parse_twitter_date (some d)) },
            true)).2) = false := h
        rw [if_neg hd, if_neg hf] at h2
        simp at h2

/-- A record whose present `published_date` is a fixed point of the
parser is left unchanged and uncounted by the migration body. -/
theorem fixRec_fixed (x : JRec) (d : String) (hpd : x.published_date = some d)
    (hcan : parse_twitter_date (some d) = d) : fixRec x = (x, false) := by
  rw [fixRec_eq, hpd]
  show (if d = "" then (x, false)
    else if parse_twitter_date (some d) = d then (x, false)
    else ({ x with published_date := some (parse_twitter_date (some d)) },
      true)) = (x, false)
  by_cases hd : d = ""
  · rw [if_pos hd]
  · rw [if_neg hd, if_pos hcan]

/-- Running the migration body on an already-migrated record changes
nothing and counts nothing: `parse_twitter_date` is idempotent. -/
theorem fixRec_fixRec (r : JRec) :
    fixRec (fixRec r).1 = ((fixRec r).1, false) := by
  cases hpd : r.published_date with
  | none =>
    have h1 : fixRec r = (r, false) := by rw [fixRec_eq, hpd]
    rw [h1]
    exact h1
  | some d =>
    by_cases hd : d = ""
    · have h1 : fixRec r = (r, false) := by
        rw [fixRec_eq, hpd]
        show (if d = "" then (r, false)
          else if parse_twitter_date (some d) = d then (r, false)
          else ({ r with
            published_date := some (parse_twitter_date (some d)) },
            true)) = (r, false)
        rw [if_pos hd]
      rw [h1]
      exact h1
    · by_cases hf : parse_twitter_date (some d) = d
      · have h1 : fixRec r = (r, false) := fixRec_fixed r d hpd hf
        rw [h1]
        exact h1
      · have h1 : fixRec r =
            ({ r with published_date := some (parse_twitter_date (some d)) },
              true) := by
          rw [fixRec_eq, hpd]
          show (if d = "" then (r, false)
            else if parse_twitter_date (some d) = d then (r, false)
            else ({ r with
              published_date := some (parse_twitter_date (some d)) },
              true)) = _
          rw [if_neg hd, if_neg hf]
        rw [h1]
        exact fixRec_fixed _ (parse_twitter_date (some d)) rfl
          (parse_twitter_date_idem d)

/-- The migrated array is the elementwise migration of the input: same
length, same order, no record added or dropped. -/
theorem fix_fst_map (l : List JRec) :
    (fix_existing_json_dates l).1 = l.map (fun r => (fixRec r).1) := by
  induction l with
  | nil => rfl
  | cons r rs ih => simp [fix_existing_json_dates, ih]

/-- If no record needs fixing, `fixed_count` is zero (no file write). -/
theorem fix_count_zero (l : List JRec)
    (h : ∀ r ∈ l, (fixRec r).2 = false) :
    (fix_existing_json_dates l).2 = 0 := by
  induction l with
  | nil => rfl
  | cons r rs ih =>
    have hr : (fixRec r).2 = false := h r (List.mem_cons_self r rs)
    have hrs := ih (fun x hx => h x (List.mem_cons_of_mem _ hx))
    simp [fix_existing_json_dates, hr, hrs]

/-- A zero `fixed_count` means every record was left untouched. -/
theorem fix_all_false (l : List JRec)
    (h : (fix_existing_json_dates l).2 = 0) :
    ∀ r ∈ l, (fixRec r).2 = false := by
  induction l with
  | nil => intro r hr; simp at hr
  | cons r rs ih =>
    intro x hx
    have hsplit : (if (fixRec r).2 then 1 else 0)
        + (fix_existing_json_dates rs).2 = 0 := h
    have hr : (fixRec r).2 = false := by
      by_cases hb : (fixRec r).2
      · rw [if_pos hb] at hsplit
        omega
      · exact Bool.not_eq_true _ ▸ (by simpa using hb)
    rcases List.mem_cons.mp hx with rfl | hx2
    · exact hr
    · have hrs : (fix_existing_json_dates rs).2 = 0 := by
        rw [if_neg (by rw [hr]; exact Bool.false_ne_true)] at hsplit
        omega
      exact ih hrs x hx2

/-- Claim C7: the historical-date migration is shape-preserving and
idempotent.  The migrated array is the elementwise rewrite of the input
(no reorder, drop or insertion; every field but `published_date`
untouched); a ledger whose present, nonempty `published_date` values are
already canonical (fixed points of the parser) produces `fixed_count = 0`
hence zero file writes; a second run over any already-migrated array
performs zero writes; and a zero-write run left the array exactly as it
was. -/
theorem C7_migration_idempotent_shape_preserving (l : List JRec) :
    (fix_existing_json_dates l).1 = l.map (fun r => (fixRec r).1) ∧
    (fix_existing_json_dates l).1.length = l.length ∧
    (∀ r : JRec, (fixRec r).1.payload = r.payload) ∧
    ((∀ r ∈ l, ∀ d, r.published_date = some d →
        parse_twitter_date (some d) = d) →
      (fix_existing_json_dates l).2 = 0) ∧
    (fix_existing_json_dates (fix_existing_json_dates l).1).2 = 0 ∧
    ((fix_existing_json_dates l).2 = 0 → (fix_existing_json_dates l).1 = l)
    := by
  refine ⟨fix_fst_map l, by rw [fix_fst_map l]; exact List.length_map _ _,
    fixRec_payload, ?_, ?_, ?_⟩
  · intro hcanon
    apply fix_count_zero
    intro r hr
    rw [fixRec_eq]
    cases hpd : r.published_date with
    | none => rfl
    | some d =>
      have hparse := hcanon r hr d hpd
      show (if d = "" then (r, false)
        else if parse_twitter_date (some d) = d then (r, false)
        else ({ r with published_date := some (parse_twitter_date (some d)) },
          true)).2 = false
      by_cases hd : d = ""
      · rw [if_pos hd]
      · rw [if_neg hd, if_pos hparse]
  · rw [fix_fst_map l]
    apply fix_count_zero
    intro r hr
    obtain ⟨r0, hr0, rfl⟩ := List.mem_map.mp hr
    rw [fixRec_fixRec r0]
  · intro hz
    rw [fix_fst_map l]
    have hmap : l.map (fun r => (fixRec r).1) = l.map id :=
      List.map_congr_left
        (fun r hr => fixRec_unchanged r (fix_all_false l hz r hr))
    rw [hmap, List.map_id]

/-- Witness for C7: a one-record ledger whose date is already canonical
triggers zero writes, and a second run after migrating a raw
Twitter-format date also triggers zero writes. -/
theorem C7_migration_witness :
    (fix_existing_json_dates
      [⟨some "2025-07-28T14:45:00+00:00", "p"⟩]).2 = 0 ∧
    (fix_existing_json_dates ((fix_existing_json_dates
      [⟨some "Mon Jul 28 14:45:00 +0000 2025", "p"⟩]).1)).2 = 0 :=
  ⟨(C7_migration_idempotent_shape_preserving
      [⟨some "2025-07-28T14:45:00+00:00", "p"⟩]).2.2.2.1
    (by
      intro r hr d hd
      rcases List.mem_singleton.mp hr with rfl
      have h2 : some "2025-07-28T14:45:00+00:00" = some d := hd
      injection h2 with h3
      rw [← h3]
      decide),
   (C7_migration_idempotent_shape_preserving
      [⟨some "Mon Jul 28 14:45:00 +0000 2025", "p"⟩]).2.2.2.2.1⟩
